import Mathlib

/-!
Shallow embedding of the transaction-reduction engine of `the_counter`
(`src/bursar.rs`), together with theorems settling the specification
claims about it.

Modelling choices:
* `rust_decimal::Decimal` amounts are modelled as `Rat` (addition and
  subtraction on `Decimal` are exact, which `Rat` reflects).
* `HashMap u32 (Option Decimal)`, `HashMap u16 Client` and
  `HashSet u32` are modelled as functions `TxId → Option (Option Amount)`,
  `ClientId → Option Client` and `TxId → Bool`.
* `u16` / `u32` ids are modelled as `Nat`; no arithmetic is performed on
  ids, only equality tests, so width does not matter.
-/

abbrev ClientId := Nat

abbrev TxId := Nat

abbrev Amount := Rat

/-- Operation kind of a transaction record (`enum Op` in `bursar.rs`). -/
inductive Op where
  | deposit
  | withdrawal
  | dispute
  | resolve
  | chargeback
deriving DecidableEq, Repr

/-- One parsed ledger record (`struct Transaction` in `bursar.rs`). -/
structure Transaction where
  tx_type : Op
  client_id : ClientId
  tx_id : TxId
  amount : Option Amount
deriving DecidableEq, Repr

/-- Per-client account state (`struct Client` in `bursar.rs`). -/
structure Client where
  client_id : ClientId
  available : Amount
  held : Amount
  locked : Bool
deriving DecidableEq, Repr

/-- Fresh account with zero balances, unlocked (`Client::new`). -/
def Client.new (cid : ClientId) : Client :=
  { client_id := cid, available := 0, held := 0, locked := false }

/-- Derived total balance (`Client::total`). -/
def Client.total (c : Client) : Amount :=
  c.available + c.held

/-- Effect of a deposit (`Client::deposit`). -/
def Client.deposit (c : Client) (a : Amount) : Client :=
  { c with available := c.available + a }

/-- Effect of a withdrawal (`Client::withdraw`): no sufficiency check. -/
def Client.withdraw (c : Client) (a : Amount) : Client :=
  { c with available := c.available - a }

/-- Effect of a dispute (`Client::dispute`). -/
def Client.dispute (c : Client) (a : Amount) : Client :=
  { c with available := c.available - a, held := c.held + a }

/-- Effect of a resolve (`Client::resolve`). -/
def Client.resolve (c : Client) (a : Amount) : Client :=
  { c with available := c.available + a, held := c.held - a }

/-- Effect of a chargeback (`Client::chargeback`): removes held funds and
locks the account. -/
def Client.chargeback (c : Client) (a : Amount) : Client :=
  { c with held := c.held - a, locked := true }

/-- Dispatch of the five operations on a client, mirroring the `match` in
`Bursar::process_transaction` once an amount has been resolved. -/
def Client.applyOp (c : Client) (op : Op) (a : Amount) : Client :=
  match op with
  | .deposit => c.deposit a
  | .withdrawal => c.withdraw a
  | .dispute => c.dispute a
  | .resolve => c.resolve a
  | .chargeback => c.chargeback a

/-- Engine state (`struct Bursar`): transaction amounts keyed by id,
client accounts keyed by id, and the set of disputed transaction ids. -/
structure Bursar where
  transactions : TxId → Option (Option Amount)
  clients : ClientId → Option Client
  disputed : TxId → Bool

/-- Fresh engine with empty maps (`Bursar::new`). -/
def Bursar.new : Bursar :=
  { transactions := fun _ => none, clients := fun _ => none,
    disputed := fun _ => false }

/-- Update of the `transactions` map performed while resolving the amount:
`self.transactions.entry(tx.tx_id).or_insert(tx.amount)` for
Deposit/Withdrawal (first occurrence wins), no change otherwise. -/
def Bursar.recordAmount (b : Bursar) (tx : Transaction) :
    TxId → Option (Option Amount) :=
  match tx.tx_type with
  | .deposit | .withdrawal =>
      match b.transactions tx.tx_id with
      | some _ => b.transactions
      | none => fun t => if t = tx.tx_id then some tx.amount else b.transactions t
  | _ => b.transactions

/-- Update of the `disputed` set: `self.disputed.insert(tx.tx_id)` on a
Dispute, no change otherwise. -/
def Bursar.recordDisputed (b : Bursar) (tx : Transaction) : TxId → Bool :=
  match tx.tx_type with
  | .dispute => fun t => if t = tx.tx_id then true else b.disputed t
  | _ => b.disputed

/-- Amount-resolution step of `Bursar::process_transaction` (the first
`match tx.tx_type`): a Deposit/Withdrawal uses its own amount, a Dispute
looks the id up in `transactions` (`unwrap_or(&None)`), a
Resolve/Chargeback looks it up only when the id is in `disputed`. -/
def Bursar.resolveAmount (b : Bursar) (tx : Transaction) : Option Amount :=
  match tx.tx_type with
  | .deposit | .withdrawal => tx.amount
  | .dispute => (b.transactions tx.tx_id).getD none
  | .resolve | .chargeback =>
      if b.disputed tx.tx_id then (b.transactions tx.tx_id).getD none else none

/-- One step of the engine (`Bursar::process_transaction`): the client
entry is created if absent (`entry(..).or_insert_with(Client::new)`), the
amount is resolved, and on success the operation's effect is applied; on
failure only a diagnostic is logged and the state of every client is left
as it was. -/
def Bursar.process_transaction (b : Bursar) (tx : Transaction) : Bursar :=
  let client := (b.clients tx.client_id).getD (Client.new tx.client_id)
  let client' :=
    match b.resolveAmount tx with
    | some a => client.applyOp tx.tx_type a
    | none => client
  { transactions := b.recordAmount tx,
    clients := fun c => if c = tx.client_id then some client' else b.clients c,
    disputed := b.recordDisputed tx }

/-- Folding the whole input stream through the engine (`Bursar::consume`). -/
def Bursar.consume (b : Bursar) (txs : List Transaction) : Bursar :=
  txs.foldl Bursar.process_transaction b

/-- Total balance of a client id in an engine state, reading an absent
account as a fresh zero account. -/
def Bursar.clientTotal (b : Bursar) (c : ClientId) : Amount :=
  ((b.clients c).getD (Client.new c)).total

/- Sanity checks mirroring the unit tests in `bursar.rs`. -/

example :
    (Bursar.new.consume
      [⟨.deposit, 1, 1, some 20⟩, ⟨.withdrawal, 1, 2, some 10⟩]).clients 1 =
      some ⟨1, 10, 0, false⟩ := by
  norm_num [Bursar.consume, Bursar.process_transaction, Bursar.resolveAmount,
    Bursar.recordAmount, Bursar.recordDisputed, Bursar.new, Client.new,
    Client.applyOp, Client.deposit, Client.withdraw, Client.dispute,
    Client.resolve, Client.chargeback]

example :
    (Bursar.new.consume
      [⟨.deposit, 1, 1, some 10⟩, ⟨.deposit, 1, 2, some 42⟩,
       ⟨.dispute, 1, 1, none⟩]).clients 1 = some ⟨1, 42, 10, false⟩ := by
  norm_num [Bursar.consume, Bursar.process_transaction, Bursar.resolveAmount,
    Bursar.recordAmount, Bursar.recordDisputed, Bursar.new, Client.new,
    Client.applyOp, Client.deposit, Client.withdraw, Client.dispute,
    Client.resolve, Client.chargeback]

example :
    (Bursar.new.consume
      [⟨.deposit, 1, 1, some 10⟩, ⟨.deposit, 1, 2, some 42⟩,
       ⟨.dispute, 1, 1, none⟩, ⟨.chargeback, 1, 1, none⟩]).clients 1 =
      some ⟨1, 42, 0, true⟩ := by
  norm_num [Bursar.consume, Bursar.process_transaction, Bursar.resolveAmount,
    Bursar.recordAmount, Bursar.recordDisputed, Bursar.new, Client.new,
    Client.applyOp, Client.deposit, Client.withdraw, Client.dispute,
    Client.resolve, Client.chargeback]

example :
    (Bursar.new.consume
      [⟨.deposit, 1, 1, some 10⟩, ⟨.deposit, 1, 2, some 42⟩,
       ⟨.resolve, 1, 1, none⟩]).clients 1 = some ⟨1, 52, 0, false⟩ := by
  norm_num [Bursar.consume, Bursar.process_transaction, Bursar.resolveAmount,
    Bursar.recordAmount, Bursar.recordDisputed, Bursar.new, Client.new,
    Client.applyOp, Client.deposit, Client.withdraw, Client.dispute,
    Client.resolve, Client.chargeback]

/- Helper lemmas shared by several claims. -/

/-- Processing a record leaves the account of every other client id
untouched. -/
lemma process_transaction_clients_ne (b : Bursar) (tx : Transaction)
    (c : ClientId) (h : c ≠ tx.client_id) :
    (b.process_transaction tx).clients c = b.clients c := by
  simp [Bursar.process_transaction, h]

/- Claim C1: conservation of total balance under Deposit/Withdrawal. -/

/-- Signed contribution of one record to client `c` as the spec's
conservation property counts it: a Deposit of `a` counts `a`, a
Withdrawal counts `-a`; records of other clients, records without an
amount and dispute-family records count `0`. -/
def signedDelta (c : ClientId) (tx : Transaction) : Amount :=
  if tx.client_id = c then
    match tx.tx_type, tx.amount with
    | Op.deposit, some a => a
    | Op.withdrawal, some a => -a
    | _, _ => 0
  else 0

/-- Signed sum of the amounts of a stream, for client `c`. -/
def signedSum (c : ClientId) (txs : List Transaction) : Amount :=
  (txs.map (signedDelta c)).sum

lemma clientTotal_process_transaction (b : Bursar) (tx : Transaction)
    (c : ClientId)
    (h : tx.client_id = c →
      (tx.tx_type = Op.deposit ∨ tx.tx_type = Op.withdrawal) ∧
        tx.amount.isSome = true) :
    (b.process_transaction tx).clientTotal c =
      b.clientTotal c + signedDelta c tx := by
  by_cases hc : tx.client_id = c
  · obtain ⟨hop, hamt⟩ := h hc
    obtain ⟨a, ha⟩ := Option.isSome_iff_exists.mp hamt
    subst hc
    rcases hop with hop | hop <;>
    · simp [Bursar.clientTotal, Bursar.process_transaction,
        Bursar.resolveAmount, hop, ha, Client.applyOp, Client.deposit,
        Client.withdraw, Client.total, signedDelta]
      ring
  · unfold Bursar.clientTotal
    rw [process_transaction_clients_ne b tx c (fun he => hc he.symm)]
    simp [signedDelta, hc]

lemma clientTotal_consume (txs : List Transaction) (b : Bursar) (c : ClientId)
    (h : ∀ tx ∈ txs, tx.client_id = c →
      (tx.tx_type = Op.deposit ∨ tx.tx_type = Op.withdrawal) ∧
        tx.amount.isSome = true) :
    (b.consume txs).clientTotal c = b.clientTotal c + signedSum c txs := by
  induction txs generalizing b with
  | nil => simp [Bursar.consume, signedSum]
  | cons tx rest ih =>
      have hstep := clientTotal_process_transaction b tx c (h tx (by simp))
      have hrest := ih (b.process_transaction tx)
        (fun t ht => h t (List.mem_cons_of_mem tx ht))
      have hcons : b.consume (tx :: rest) =
          (b.process_transaction tx).consume rest := rfl
      rw [hcons, hrest, hstep]
      simp [signedSum]
      ring

/-- C1: for a client whose records in the stream are all Deposits and
Withdrawals carrying amounts, the final total balance equals the signed
sum of those amounts (deposits positive, withdrawals negative). -/
theorem C1_conservation (txs : List Transaction) (c : ClientId)
    (h : ∀ tx ∈ txs, tx.client_id = c →
      (tx.tx_type = Op.deposit ∨ tx.tx_type = Op.withdrawal) ∧
        tx.amount.isSome = true) :
    (Bursar.new.consume txs).clientTotal c = signedSum c txs := by
  have htot := clientTotal_consume txs Bursar.new c h
  simpa [Bursar.new, Bursar.clientTotal, Client.new, Client.total] using htot

/-- Witness for C1 on a concrete stream: client 1 deposits 3, withdraws 1,
while client 2 deposits 5. -/
theorem C1_conservation_witness :
    (Bursar.new.consume
      [⟨Op.deposit, 1, 1, some 3⟩, ⟨Op.withdrawal, 1, 2, some 1⟩,
       ⟨Op.deposit, 2, 3, some 5⟩]).clientTotal 1 =
      signedSum 1
        [⟨Op.deposit, 1, 1, some 3⟩, ⟨Op.withdrawal, 1, 2, some 1⟩,
         ⟨Op.deposit, 2, 3, some 5⟩] :=
  C1_conservation _ 1 (by intro tx htx; fin_cases htx <;> simp)

/- Claim C2: the disputed set only grows; a second Resolve re-applies. -/

/-- C2: a disputed transaction id survives every later operation, and a
stream [Deposit(t,A), Dispute(t), Resolve(t), Resolve(t)] shows the second
Resolve re-applying the effect with the original amount A: available ends
at `A + A` (not `A`) and held at `-A` (not `0`). -/
theorem C2_disputed_never_removed :
    (∀ (b : Bursar) (tx : Transaction) (t : TxId),
        b.disputed t = true → (b.process_transaction tx).disputed t = true)
    ∧ ∀ A : Amount,
        (Bursar.new.consume
          [⟨Op.deposit, 1, 1, some A⟩, ⟨Op.dispute, 1, 1, none⟩,
           ⟨Op.resolve, 1, 1, none⟩, ⟨Op.resolve, 1, 1, none⟩]).clients 1 =
          some ⟨1, A + A, -A, false⟩ := by
  constructor
  · intro b tx t h
    cases htype : tx.tx_type <;>
      simp [Bursar.process_transaction, Bursar.recordDisputed, htype, h]
  · intro A
    simp [Bursar.consume, Bursar.process_transaction, Bursar.resolveAmount,
      Bursar.recordAmount, Bursar.recordDisputed, Bursar.new, Client.new,
      Client.applyOp, Client.deposit, Client.withdraw, Client.dispute,
      Client.resolve, Client.chargeback, Client.mk.injEq]

/-- Witness for C2: the dispute of tx 5 survives a later deposit. -/
theorem C2_disputed_never_removed_witness :
    ((Bursar.new.process_transaction
        ⟨Op.dispute, 1, 5, none⟩).process_transaction
          ⟨Op.deposit, 1, 2, some 1⟩).disputed 5 = true :=
  C2_disputed_never_removed.1 _ ⟨Op.deposit, 1, 2, some 1⟩ 5 rfl

/- Claim C3: records without a resolvable amount are discarded. -/

/-- C3: when the amount-resolution step yields no amount, processing the
record changes no client's account fields (an absent account reads as a
fresh zero one), and the engine just moves on to the rest of the stream.
The embedding is a total function, so no panic is possible. -/
theorem C3_unresolved_amount_no_change (b : Bursar) (tx : Transaction)
    (h : b.resolveAmount tx = none) :
    (∀ c : ClientId,
      ((b.process_transaction tx).clients c).getD (Client.new c) =
        (b.clients c).getD (Client.new c))
    ∧ ∀ rest : List Transaction,
        b.consume (tx :: rest) = (b.process_transaction tx).consume rest := by
  constructor
  · intro c
    by_cases hc : c = tx.client_id
    · subst hc
      cases hcl : b.clients tx.client_id <;>
        simp [Bursar.process_transaction, h, hcl]
    · simp [Bursar.process_transaction, h, hc]
  · intro rest
    rfl

/-- Witness for C3: a Dispute naming the never-seen tx id 99. -/
theorem C3_unresolved_amount_no_change_witness :
    ((Bursar.new.process_transaction
        ⟨Op.dispute, 1, 99, none⟩).clients 1).getD (Client.new 1) =
      (Bursar.new.clients 1).getD (Client.new 1) :=
  (C3_unresolved_amount_no_change Bursar.new ⟨Op.dispute, 1, 99, none⟩ rfl).1 1

/- Claim C4: dispute followed by resolve restores the deposit-only state. -/

/-- C4: for every amount A, [Deposit(tx=1,A), Dispute(tx=1), Resolve(tx=1)]
ends in the same client state as the Deposit alone: available = A,
held = 0, locked = false. -/
theorem C4_dispute_resolve_reversible (A : Amount) :
    (Bursar.new.consume
      [⟨Op.deposit, 1, 1, some A⟩, ⟨Op.dispute, 1, 1, none⟩,
       ⟨Op.resolve, 1, 1, none⟩]).clients 1 =
      (Bursar.new.consume [⟨Op.deposit, 1, 1, some A⟩]).clients 1
    ∧ (Bursar.new.consume
      [⟨Op.deposit, 1, 1, some A⟩, ⟨Op.dispute, 1, 1, none⟩,
       ⟨Op.resolve, 1, 1, none⟩]).clients 1 = some ⟨1, A, 0, false⟩ := by
  constructor <;>
  · simp [Bursar.consume, Bursar.process_transaction, Bursar.resolveAmount,
      Bursar.recordAmount, Bursar.recordDisputed, Bursar.new, Client.new,
      Client.applyOp, Client.deposit, Client.withdraw, Client.dispute,
      Client.resolve, Client.chargeback, Client.mk.injEq]

/- Claim C5: chargeback of a disputed deposit removes it and locks. -/

/-- C5: for all amounts A and B, [Deposit(1,A), Deposit(2,B), Dispute(1),
Chargeback(1)] ends with available = B, held = 0, total = B, locked. -/
theorem C5_chargeback_finality (A B : Amount) :
    (Bursar.new.consume
      [⟨Op.deposit, 1, 1, some A⟩, ⟨Op.deposit, 1, 2, some B⟩,
       ⟨Op.dispute, 1, 1, none⟩, ⟨Op.chargeback, 1, 1, none⟩]).clients 1 =
      some ⟨1, B, 0, true⟩
    ∧ (Bursar.new.consume
      [⟨Op.deposit, 1, 1, some A⟩, ⟨Op.deposit, 1, 2, some B⟩,
       ⟨Op.dispute, 1, 1, none⟩, ⟨Op.chargeback, 1, 1, none⟩]).clientTotal 1 =
      B := by
  constructor <;>
  · simp [Bursar.consume, Bursar.process_transaction, Bursar.resolveAmount,
      Bursar.recordAmount, Bursar.recordDisputed, Bursar.new, Client.new,
      Client.applyOp, Client.deposit, Client.withdraw, Client.dispute,
      Client.resolve, Client.chargeback, Client.mk.injEq, Bursar.clientTotal,
      Client.total]
    try ring

/- Claim C6: the transaction map keeps the first amount seen per tx id. -/

/-- Amount carried by the first Deposit or Withdrawal record of a stream
whose transaction id is `t` (`none` when no such record exists). -/
def firstDWAmount (t : TxId) : List Transaction → Option (Option Amount)
  | [] => none
  | tx :: rest =>
      if (tx.tx_type = Op.deposit ∨ tx.tx_type = Op.withdrawal) ∧ tx.tx_id = t
      then some tx.amount
      else firstDWAmount t rest

lemma transactions_process_transaction_stable (b : Bursar) (tx : Transaction)
    (t : TxId) (v : Option Amount) (h : b.transactions t = some v) :
    (b.process_transaction tx).transactions t = some v := by
  cases htype : tx.tx_type <;>
    simp only [Bursar.process_transaction, Bursar.recordAmount, htype]
  case deposit | withdrawal =>
    cases he : b.transactions tx.tx_id with
    | some w => exact h
    | none =>
        by_cases ht : t = tx.tx_id
        · subst ht; rw [h] at he; exact absurd he (by simp)
        · simpa [ht] using h
  all_goals exact h

lemma transactions_consume_stable (txs : List Transaction) (b : Bursar)
    (t : TxId) (v : Option Amount) (h : b.transactions t = some v) :
    (b.consume txs).transactions t = some v := by
  induction txs generalizing b with
  | nil => exact h
  | cons tx rest ih =>
      exact ih (b.process_transaction tx)
        (transactions_process_transaction_stable b tx t v h)

lemma transactions_consume_of_none (txs : List Transaction) (b : Bursar)
    (t : TxId) (h : b.transactions t = none) :
    (b.consume txs).transactions t = firstDWAmount t txs := by
  induction txs generalizing b with
  | nil => exact h
  | cons tx rest ih =>
      by_cases hdw :
          (tx.tx_type = Op.deposit ∨ tx.tx_type = Op.withdrawal) ∧ tx.tx_id = t
      · obtain ⟨hop, hid⟩ := hdw
        have hset : (b.process_transaction tx).transactions t = some tx.amount := by
          subst hid
          rcases hop with hop | hop <;>
            simp [Bursar.process_transaction, Bursar.recordAmount, hop, h]
        have hkeep := transactions_consume_stable rest
          (b.process_transaction tx) t tx.amount hset
        have hfirst : firstDWAmount t (tx :: rest) = some tx.amount := by
          simp [firstDWAmount, hop, hid]
        rw [hfirst]
        exact hkeep
      · have hsame : (b.process_transaction tx).transactions t = none := by
          cases htype : tx.tx_type <;>
            simp only [Bursar.process_transaction, Bursar.recordAmount, htype]
          case deposit | withdrawal =>
            have hid : ¬t = tx.tx_id := by
              intro he
              exact hdw ⟨by simp [htype], he.symm⟩
            cases he : b.transactions tx.tx_id with
            | some w => exact h
            | none => simpa [hid] using h
          all_goals exact h
        have hfirst : firstDWAmount t (tx :: rest) = firstDWAmount t rest := by
          simp [firstDWAmount, hdw]
        rw [hfirst]
        exact ih (b.process_transaction tx) hsame
      
/-- C6: in every state reachable from the empty engine, the transaction
map binds a tx id to the amount of the first Deposit/Withdrawal record
carrying it; moreover an existing binding is never overwritten by any
later record. -/
theorem C6_first_amount_wins :
    (∀ (txs : List Transaction) (t : TxId),
      (Bursar.new.consume txs).transactions t = firstDWAmount t txs)
    ∧ ∀ (b : Bursar) (tx : Transaction) (t : TxId) (v : Option Amount),
        b.transactions t = some v →
        (b.process_transaction tx).transactions t = some v := by
  constructor
  · intro txs t
    exact transactions_consume_of_none txs Bursar.new t rfl
  · exact transactions_process_transaction_stable

/-- Witness for C6: a deposit of 7 under tx id 5 is not overwritten by a
later withdrawal reusing tx id 5 with amount 9. -/
theorem C6_first_amount_wins_witness :
    ((Bursar.new.process_transaction
        ⟨Op.deposit, 1, 5, some 7⟩).process_transaction
          ⟨Op.withdrawal, 2, 5, some 9⟩).transactions 5 = some (some 7) :=
  C6_first_amount_wins.2 _ ⟨Op.withdrawal, 2, 5, some 9⟩ 5 (some 7) rfl

/- Claim C7: withdrawals are applied with no sufficiency check. -/

/-- C7: a Withdrawal with a present amount always subtracts it from the
client's available balance, and a single withdrawal of 5 from a fresh
client leaves a negative available balance. -/
theorem C7_unchecked_withdrawal :
    (∀ (b : Bursar) (cid : ClientId) (tid : TxId) (a : Amount),
      (b.process_transaction ⟨Op.withdrawal, cid, tid, some a⟩).clients cid =
        some (((b.clients cid).getD (Client.new cid)).withdraw a))
    ∧ (((Bursar.new.consume [⟨Op.withdrawal, 1, 1, some 5⟩]).clients 1).getD
        (Client.new 1)).available < 0 := by
  constructor
  · intro b cid tid a
    simp [Bursar.process_transaction, Bursar.resolveAmount, Client.applyOp]
  · norm_num [Bursar.consume, Bursar.process_transaction, Bursar.resolveAmount,
      Bursar.recordAmount, Bursar.recordDisputed, Bursar.new, Client.new,
      Client.applyOp, Client.withdraw]

/- Claim C8: the locked flag gates nothing and is never reset. -/

/-- Same engine state with the locked flag of client `c` (when the account
exists) overwritten by `v`; used to state that processing never reads the
flag. -/
def Bursar.withLocked (b : Bursar) (c : ClientId) (v : Bool) : Bursar :=
  { b with clients := fun c2 =>
      if c2 = c then (b.clients c2).map (fun cl => { cl with locked := v })
      else b.clients c2 }

lemma applyOp_available_held_congr (cl₁ cl₂ : Client) (op : Op) (a : Amount)
    (hav : cl₁.available = cl₂.available) (hh : cl₁.held = cl₂.held) :
    (cl₁.applyOp op a).available = (cl₂.applyOp op a).available ∧
      (cl₁.applyOp op a).held = (cl₂.applyOp op a).held := by
  cases op <;> simp [Client.applyOp, Client.deposit, Client.withdraw,
    Client.dispute, Client.resolve, Client.chargeback, hav, hh]

lemma applyOp_locked_mono (cl : Client) (op : Op) (a : Amount)
    (h : cl.locked = true) : (cl.applyOp op a).locked = true := by
  cases op <;> simp [Client.applyOp, Client.deposit, Client.withdraw,
    Client.dispute, Client.resolve, Client.chargeback, h]

lemma withLocked_available_held (b : Bursar) (c : ClientId) (v : Bool)
    (c2 : ClientId) :
    (((b.withLocked c v).clients c2).getD (Client.new c2)).available =
        ((b.clients c2).getD (Client.new c2)).available ∧
      (((b.withLocked c v).clients c2).getD (Client.new c2)).held =
        ((b.clients c2).getD (Client.new c2)).held := by
  unfold Bursar.withLocked
  by_cases hc : c2 = c
  · subst hc
    cases hcl : b.clients c2 <;> simp [hcl]
  · simp [hc]

lemma resolveAmount_withLocked (b : Bursar) (c : ClientId) (v : Bool)
    (tx : Transaction) :
    (b.withLocked c v).resolveAmount tx = b.resolveAmount tx := by
  cases htype : tx.tx_type <;>
    simp [Bursar.resolveAmount, Bursar.withLocked, htype]

/-- C8: a client locked by a Chargeback is not rejected by anything: the
locked flag, once true, stays true through every operation, and flipping
the flag of any client changes no available or held balance produced by
processing any record — operations mutate balances exactly as they would
for an unlocked client. -/
theorem C8_locked_never_enforced :
    (∀ (b : Bursar) (tx : Transaction) (c : ClientId),
        ((b.clients c).getD (Client.new c)).locked = true →
        (((b.process_transaction tx).clients c).getD (Client.new c)).locked =
          true)
    ∧ ∀ (b : Bursar) (tx : Transaction) (c : ClientId) (v : Bool)
        (c2 : ClientId),
        ((((b.withLocked c v).process_transaction tx).clients c2).getD
            (Client.new c2)).available =
          (((b.process_transaction tx).clients c2).getD
            (Client.new c2)).available
        ∧ ((((b.withLocked c v).process_transaction tx).clients c2).getD
            (Client.new c2)).held =
          (((b.process_transaction tx).clients c2).getD
            (Client.new c2)).held := by
  constructor
  · intro b tx c h
    by_cases hc : c = tx.client_id
    · subst hc
      cases hra : b.resolveAmount tx with
      | none => simpa [Bursar.process_transaction, hra] using h
      | some a =>
          simpa [Bursar.process_transaction, hra] using
            applyOp_locked_mono _ tx.tx_type a h
    · simpa [Bursar.process_transaction, hc] using h
  · intro b tx c v c2
    have hres := resolveAmount_withLocked b c v tx
    by_cases hc2 : c2 = tx.client_id
    · subst hc2
      cases hra : b.resolveAmount tx with
      | none =>
          simpa [Bursar.process_transaction, hres, hra] using
            withLocked_available_held b c v tx.client_id
      | some a =>
          have hcongr := applyOp_available_held_congr
            (((b.withLocked c v).clients tx.client_id).getD
              (Client.new tx.client_id))
            ((b.clients tx.client_id).getD (Client.new tx.client_id))
            tx.tx_type a
            (withLocked_available_held b c v tx.client_id).1
            (withLocked_available_held b c v tx.client_id).2
          simpa [Bursar.process_transaction, hres, hra] using hcongr
    · have h1 := process_transaction_clients_ne (b.withLocked c v) tx c2 hc2
      have h2 := process_transaction_clients_ne b tx c2 hc2
      rw [h1, h2]
      exact withLocked_available_held b c v c2

/-- Witness for C8: a deposit into an explicitly locked account is still
applied and the flag survives. -/
theorem C8_locked_never_enforced_witness :
    ((((⟨fun _ => none,
          fun c => if c = 1 then some ⟨1, 0, 0, true⟩ else none,
          fun _ => false⟩ : Bursar).process_transaction
            ⟨Op.deposit, 1, 2, some 3⟩).clients 1).getD
        (Client.new 1)).locked = true :=
  C8_locked_never_enforced.1 _ ⟨Op.deposit, 1, 2, some 3⟩ 1 rfl

/- Claim C9: dispute-family records trust the record's own client id. -/

/-- C9: processing touches only the account named by the record's
client_id, and a Dispute whose client_id differs from the depositor's
moves the depositor's amount on the record's client: after
[Deposit(client 1, tx 7, 10), Dispute(client 2, tx 7)] client 1 is
untouched while client 2 holds available = -10, held = 10. -/
theorem C9_no_ownership_check :
    (∀ (b : Bursar) (tx : Transaction) (c : ClientId), c ≠ tx.client_id →
        (b.process_transaction tx).clients c = b.clients c)
    ∧ (Bursar.new.consume
        [⟨Op.deposit, 1, 7, some 10⟩, ⟨Op.dispute, 2, 7, none⟩]).clients 1 =
        some ⟨1, 10, 0, false⟩
    ∧ (Bursar.new.consume
        [⟨Op.deposit, 1, 7, some 10⟩, ⟨Op.dispute, 2, 7, none⟩]).clients 2 =
        some ⟨2, -10, 10, false⟩ := by
  refine ⟨process_transaction_clients_ne, ?_, ?_⟩ <;>
  · norm_num [Bursar.consume, Bursar.process_transaction, Bursar.resolveAmount,
      Bursar.recordAmount, Bursar.recordDisputed, Bursar.new, Client.new,
      Client.applyOp, Client.deposit, Client.withdraw, Client.dispute,
      Client.resolve, Client.chargeback, Client.mk.injEq]

/-- Witness for C9: a Dispute naming client 2 leaves client 1 untouched. -/
theorem C9_no_ownership_check_witness :
    (Bursar.new.process_transaction ⟨Op.dispute, 2, 7, none⟩).clients 1 =
      Bursar.new.clients 1 :=
  C9_no_ownership_check.1 Bursar.new ⟨Op.dispute, 2, 7, none⟩ 1 (by decide)

/- Claim C10: account creation on any record, frame on other clients. -/

lemma clients_isSome_process_transaction (b : Bursar) (tx : Transaction)
    (c : ClientId) (h : (b.clients c).isSome = true) :
    ((b.process_transaction tx).clients c).isSome = true := by
  by_cases hc : c = tx.client_id
  · subst hc; simp [Bursar.process_transaction]
  · simpa [process_transaction_clients_ne b tx c hc] using h

lemma clients_isSome_consume (txs : List Transaction) (b : Bursar)
    (c : ClientId) (h : (b.clients c).isSome = true) :
    ((b.consume txs).clients c).isSome = true := by
  induction txs generalizing b with
  | nil => exact h
  | cons tx rest ih =>
      exact ih (b.process_transaction tx)
        (clients_isSome_process_transaction b tx c h)

/-- C10: every processed record forces an account for its client id to
exist — still with zero balances and unlocked when the account is new and
the record's amount is unresolvable — and that account persists into the
final snapshot of any continuation of the stream, while all other
clients' accounts are left exactly as they were. -/
theorem C10_account_creation_and_frame (b : Bursar) (tx : Transaction) :
    ((b.process_transaction tx).clients tx.client_id).isSome = true
    ∧ (b.clients tx.client_id = none → b.resolveAmount tx = none →
        (b.process_transaction tx).clients tx.client_id =
          some (Client.new tx.client_id))
    ∧ (∀ rest : List Transaction,
        (((b.process_transaction tx).consume rest).clients
          tx.client_id).isSome = true)
    ∧ ∀ c : ClientId, c ≠ tx.client_id →
        (b.process_transaction tx).clients c = b.clients c := by
  refine ⟨?_, ?_, ?_, fun c hc => process_transaction_clients_ne b tx c hc⟩
  · simp [Bursar.process_transaction]
  · intro h1 h2
    simp [Bursar.process_transaction, h1, h2]
  · intro rest
    exact clients_isSome_consume rest (b.process_transaction tx) tx.client_id
      (by simp [Bursar.process_transaction])

/-- Witness for C10: a discarded Resolve for the never-seen client 3
still creates client 3's zero account. -/
theorem C10_account_creation_and_frame_witness :
    (Bursar.new.process_transaction ⟨Op.resolve, 3, 8, none⟩).clients 3 =
      some (Client.new 3) :=
  (C10_account_creation_and_frame Bursar.new ⟨Op.resolve, 3, 8, none⟩).2.1
    rfl rfl
